import Mathlib

/-!
Verification development for the Tuvok GPU memory manager
(`GPUMemMan.cpp` / `GPUMemManDataStructs.cpp`).

The C++ code is shallowly embedded: byte buffers become `List ℕ`
(each entry one byte), machine integers become `ℕ` (brick dimensions and
byte counts stay far below 2^32 in this code, so overflow never occurs on
the modelled paths), `double` arithmetic in the quantizer becomes exact
`ℚ` arithmetic (all values involved are exactly representable small
integers, so the double rounding never changes the truncated result),
and the GL texture objects become a plain record holding the uploaded
bytes.  Fallible operations return a `Bool` success flag exactly where
the C++ returns `bool`.
-/

namespace Tuvok

/-- `extract l off len` is the byte segment `l[off .. off+len)`
(the view a `memcpy` of `len` bytes starting at `off` reads or writes). -/
def extract (l : List ℕ) (off len : ℕ) : List ℕ :=
  (l.drop off).take len

/-- Modelled from the spec: `MathTools::NextPow2` (the `Basics/MathTools.h`
implementation is not part of the sources at hand).  Per spec §4.3 the
padded extent of an axis of length `n` is the least power of two that is
no smaller than `n`.  `nextPow2Aux n fuel acc` doubles `acc` until it
reaches `n`; fuel `n` suffices because `n ≤ 2 ^ n`. -/
def nextPow2Aux (n : ℕ) : ℕ → ℕ → ℕ
  | 0, acc => acc
  | fuel + 1, acc => if n ≤ acc then acc else nextPow2Aux n fuel (2 * acc)

/-- Modelled from the spec: least power of two `≥ n` (see `nextPow2Aux`). -/
def nextPow2 (n : ℕ) : ℕ :=
  nextPow2Aux n n 1

/-!
## The padding transform (`GLVolumeListElem::PadData`)

The C++ routine (GPUMemManDataStructs.cpp, `PadData`) allocates a
zero-initialised buffer of `iRowSizeTarget * vPaddedSize[1] *
vPaddedSize[2]` bytes and then walks it with running offsets `iTarget`
(destination) and `iSource` (source):
for every source plane `z` and row `y` it `memcpy`s the source row, then
(border enabled, i.e. `!m_bDisableBorder`, and `iRowSizeTarget >
iRowSizeSource`) duplicates the last element of the row just written;
after the rows of a plane, if `vPaddedSize[1] > vSize[1]` it duplicates
the last written target row once and skips the remaining target rows of
the plane; after all planes, if the border is enabled and
`vPaddedSize[2] > vSize[2]` it duplicates the last written target plane
once.  The writes are strictly sequential, so the embedding emits the
identical byte sequence by concatenation; every region the C++ skips over
appears here as the `List.replicate _ 0` segment the `memset` left there,
and each duplication `memcpy` (whose source is the target row/plane
written immediately before) reappears as the very expression that emitted
that row/plane, namely `padRow`/`padPlane` at the last source index.
`m_bDisableBorder` is a field of the entry; it is passed explicitly here.
-/
/-- Source row `y` of plane `z`: the `iRowSizeSource` bytes `memcpy` reads
at running offset `iSource = (z*vSize[1]+y)*iRowSizeSource`. -/
def srcRow (pRawData : List ℕ) (iRowSizeSource vSizeY z y : ℕ) : List ℕ :=
  extract pRawData ((z * vSizeY + y) * iRowSizeSource) iRowSizeSource

/-- One target row of `PadData`: the copied source row, then (border
enabled and x-padding present) the duplicated last element, then the
zero bytes of the remaining x-padding. -/
def padRow (bDisableBorder : Bool) (row : List ℕ)
    (iElementSize iRowSizeSource iRowSizeTarget : ℕ) : List ℕ :=
  let dup := if ¬bDisableBorder ∧ iRowSizeSource < iRowSizeTarget then
      extract row (iRowSizeSource - iElementSize) iElementSize else []
  row ++ dup ++ List.replicate (iRowSizeTarget - (iRowSizeSource + dup.length)) 0

/-- One target plane of `PadData`: the padded source rows, then (when
y-padding is present) either the duplicated last target row (border
enabled) or a zero row (border disabled), then the remaining zero rows. -/
def padPlane (bDisableBorder : Bool) (pRawData : List ℕ)
    (vSizeY iElementSize iRowSizeSource iRowSizeTarget pY z : ℕ) : List ℕ :=
  let rows := List.flatten ((List.range vSizeY).map (fun y =>
    padRow bDisableBorder (srcRow pRawData iRowSizeSource vSizeY z y)
      iElementSize iRowSizeSource iRowSizeTarget))
  rows ++ (if vSizeY < pY then
      (if bDisableBorder then List.replicate iRowSizeTarget 0
       else padRow bDisableBorder (srcRow pRawData iRowSizeSource vSizeY z (vSizeY - 1))
         iElementSize iRowSizeSource iRowSizeTarget)
      ++ List.replicate ((pY - vSizeY - 1) * iRowSizeTarget) 0
    else [])

/-- `GLVolumeListElem::PadData`: pad a raw brick of `vSize` voxels
(element byte size `iBitWidth/8 * iCompCount`) to
`nextPow2`-sized extents, replicating one border element/row/plane when
the border is enabled.  Returns the padded bytes and the padded size. -/
def PadData (bDisableBorder : Bool) (pRawData : List ℕ) :
    ℕ × ℕ × ℕ → ℕ → ℕ → List ℕ × (ℕ × ℕ × ℕ)
  | (sX, sY, sZ), iBitWidth, iCompCount =>
    let pX := nextPow2 sX
    let pY := nextPow2 sY
    let pZ := nextPow2 sZ
    let iElementSize := iBitWidth / 8 * iCompCount
    let iRowSizeSource := sX * iElementSize
    let iRowSizeTarget := pX * iElementSize
    let planes := List.flatten ((List.range sZ).map
      (padPlane bDisableBorder pRawData sY iElementSize iRowSizeSource iRowSizeTarget pY))
    let out := planes ++ (if sZ < pZ then
        (if bDisableBorder then List.replicate (pY * iRowSizeTarget) 0
         else padPlane bDisableBorder pRawData sY iElementSize iRowSizeSource
           iRowSizeTarget pY (sZ - 1))
        ++ List.replicate ((pZ - sZ - 1) * (pY * iRowSizeTarget)) 0
      else [])
    (out, (pX, pY, pZ))

/-!
## The volume cache entry (`GLVolumeListElem`)

The entry's `Dataset*`/`BrickKey` pair is modelled by the values the
entry queries through it: `brickVoxelCounts` stands for
`pDataset->GetBrickVoxelCounts(m_Key)` and `DatasetInfo` bundles the
per-dataset accessors `GetBitWidth`, `GetComponentCount`,
`IsSameEndianness` and `GetRange` used while staging a brick.  The
`GLVolume` GPU resource is modelled as the record of what was uploaded.
The dataset `double` range is modelled with exact `ℚ`.
-/
/-- The dataset accessors a cache entry consumes (`Dataset` collaborator). -/
structure DatasetInfo where
  bitWidth : ℕ
  compCount : ℕ
  sameEndian : Bool
  rangeMin : ℚ
  rangeMax : ℚ
deriving DecidableEq

/-- A GPU volume resource: the extents and bytes handed to the driver,
and whether it is a 2D-stack emulation (`GLVolume2DTex`) or a true 3D
texture (`GLVolume3DTex`). -/
structure GLVolume where
  sizeX : ℕ
  sizeY : ℕ
  sizeZ : ℕ
  emulate2D : Bool
  data : List ℕ
deriving DecidableEq

/-- The volume cache entry (`GLVolumeListElem` of
GPUMemManDataStructs.h/.cpp). -/
structure GLVolumeListElem where
  pDataset : DatasetInfo
  brickVoxelCounts : ℕ × ℕ × ℕ
  iUserCount : ℕ
  m_iIntraFrameCounter : ℕ
  m_iFrameCounter : ℕ
  m_bIsPaddedToPowerOfTwo : Bool
  m_bIsDownsampledTo8Bits : Bool
  m_bDisableBorder : Bool
  m_bEmulate3DWith2DStacks : Bool
  m_bUsingHub : Bool
  volumes : List (Option GLVolume)
  vData : List ℕ
deriving DecidableEq

/-- `GLVolumeListElem::Match`: an entry matches a requested dimension
when it owns volume slots and the brick's voxel counts equal the
request. -/
def GLVolumeListElem.MatchDim (el : GLVolumeListElem) (vDimension : ℕ × ℕ × ℕ) : Bool :=
  if el.volumes.isEmpty then false
  else decide (el.brickVoxelCounts = vDimension)

/-- `GLVolumeListElem::BestMatch`: reject unless the dimensions and all
four format flags match and the entry is unused; otherwise accept the
entry when it is framewise older than the best found so far
(`iFrameCounter > m_iFrameCounter`), or — at equal frame — when
`iIntraFrameCounter < m_iIntraFrameCounter`; on acceptance the running
pair is overwritten with this entry's counters.  Returns (accepted,
running intra counter, running frame counter). -/
def GLVolumeListElem.BestMatch (el : GLVolumeListElem) (vDimension : ℕ × ℕ × ℕ)
    (bIsPaddedToPowerOfTwo bIsDownsampledTo8Bits bDisableBorder
      bEmulate3DWith2DStacks : Bool)
    (iIntraFrameCounter iFrameCounter : ℕ) : Bool × ℕ × ℕ :=
  if ¬ el.MatchDim vDimension ∨ 0 < el.iUserCount
      ∨ el.m_bIsPaddedToPowerOfTwo ≠ bIsPaddedToPowerOfTwo
      ∨ el.m_bIsDownsampledTo8Bits ≠ bIsDownsampledTo8Bits
      ∨ el.m_bDisableBorder ≠ bDisableBorder
      ∨ el.m_bEmulate3DWith2DStacks ≠ bEmulate3DWith2DStacks then
    (false, iIntraFrameCounter, iFrameCounter)
  else if el.m_iFrameCounter < iFrameCounter then
    (true, el.m_iIntraFrameCounter, el.m_iFrameCounter)
  else if iFrameCounter = el.m_iFrameCounter
      ∧ iIntraFrameCounter < el.m_iIntraFrameCounter then
    (true, el.m_iIntraFrameCounter, el.m_iFrameCounter)
  else
    (false, iIntraFrameCounter, iFrameCounter)

/-- One iteration of the manager's best-match scan: call `BestMatch`
with the running counter pair and remember the entry on success. -/
def BestMatchStep (vDimension : ℕ × ℕ × ℕ) (p d b s : Bool)
    (acc : Option GLVolumeListElem × ℕ × ℕ) (el : GLVolumeListElem) :
    Option GLVolumeListElem × ℕ × ℕ :=
  let r := el.BestMatch vDimension p d b s acc.2.1 acc.2.2
  if r.1 then (some el, r.2.1, r.2.2) else (acc.1, r.2.1, r.2.2)

/-- Modelled from the spec: the manager's best-match search (spec §4.2;
the `GPUMemMan` scan loop itself is not among the sources at hand, only
`GLVolumeListElem::BestMatch` is).  It iterates `BestMatch` over the
entry list, passing the running `(intra-frame, frame)` pair by
reference; the entry of the last successful call is the result. -/
def BestMatchSearch (entries : List GLVolumeListElem) (vDimension : ℕ × ℕ × ℕ)
    (p d b s : Bool) (iIntraFrameCounter iFrameCounter : ℕ) :
    Option GLVolumeListElem × ℕ × ℕ :=
  entries.foldl (BestMatchStep vDimension p d b s)
    (none, iIntraFrameCounter, iFrameCounter)

/-- An entry that satisfies every rejection guard of `BestMatch`:
matching dimensions, user count zero, all four format flags equal. -/
def Matches (el : GLVolumeListElem) (vDimension : ℕ × ℕ × ℕ)
    (p d b s : Bool) : Prop :=
  el.MatchDim vDimension = true ∧ el.iUserCount = 0
    ∧ el.m_bIsPaddedToPowerOfTwo = p ∧ el.m_bIsDownsampledTo8Bits = d
    ∧ el.m_bDisableBorder = b ∧ el.m_bEmulate3DWith2DStacks = s

/-!
## Staging and texture creation (`GLVolumeListElem::LoadData` /
`CreateTexture`)

GL calls cannot fail in the model (`glGetError` is assumed to report no
error, so the `GL_NO_ERROR==glGetError()` results are `true`), and
`Dataset::GetBrick` is modelled as always delivering the bytes
`brickBytes`; the contents currently held by the shared upload hub are
likewise modelled by `brickBytes` when the hub is the staging area.
16-bit elements are read from the byte buffer in host (little-endian)
order.  A `double`-to-`unsigned char` cast stores the low byte of the
truncated value; every value exercised by the theorems below lies in
[0, 256), where this matches the C++ exactly.
-/
/-- `GLVolumeListElem::FreeData`: drop the private staging buffer. -/
def GLVolumeListElem.FreeData (el : GLVolumeListElem) : GLVolumeListElem :=
  { el with vData := [] }

/-- `GLVolumeListElem::FreeTexture`: when a volume is attached, release
its GL resources and null the slot. -/
def GLVolumeListElem.FreeTexture (el : GLVolumeListElem) : GLVolumeListElem :=
  if el.volumes.headD none ≠ none then
    { el with volumes := el.volumes.set 0 none }
  else el

/-- `GLVolumeListElem::LoadData`: compute the brick byte size; when the
shared upload hub is non-empty and the brick fits within 4× the IO
layer's in-core size, stage into the hub (`m_bUsingHub := true`),
otherwise fetch into the private buffer `vData`.  Returns
(success, updated entry, staged bytes). -/
def GLVolumeListElem.LoadData (el : GLVolumeListElem) (vUploadHub : List ℕ)
    (iIncoreSize : ℕ) (brickBytes : List ℕ) : Bool × GLVolumeListElem × List ℕ :=
  let vSize := el.brickVoxelCounts
  let iByteWidth := el.pDataset.bitWidth / 8
  let iCompCount := el.pDataset.compCount
  let iBrickSize := vSize.1 * vSize.2.1 * vSize.2.2 * iByteWidth * iCompCount
  if ¬ vUploadHub.isEmpty ∧ iBrickSize ≤ iIncoreSize * 4 then
    (true, { el with m_bUsingHub := true }, brickBytes)
  else
    (true, { el with vData := brickBytes }, brickBytes)

/-- The 16-bit element at index `i` of a byte buffer, host order. -/
def readShort (buf : List ℕ) (i : ℕ) : ℕ :=
  buf.getD (2 * i) 0 + 256 * buf.getD (2 * i + 1) 0

/-- The quantizer expression of `CreateTexture` exactly as the source
writes it: `(unsigned char)((255.0*value - fMin) / (fMax-fMin))`, in
exact rational arithmetic (all doubles involved are exact here). -/
def quantizeCode (v fMin fMax : ℚ) : ℤ :=
  Int.floor ((255 * v - fMin) / (fMax - fMin))

/-- Modelled from the spec: the documented quantization formula
`(value - min) / (max - min) * 255`, floored to an 8-bit level. -/
def quantizeSpec (v fMin fMax : ℚ) : ℤ :=
  Int.floor ((v - fMin) / (fMax - fMin) * 255)

/-- Modelled from the spec: `EndianConvert::Swap<short>` (the
`EndianConvert` helper is not among the sources at hand) applied to the
first `k` 16-bit elements of a byte buffer — each element's two bytes
are exchanged, the rest of the buffer is untouched. -/
def swapShortBytes : ℕ → List ℕ → List ℕ
  | 0, buf => buf
  | k + 1, a :: b :: rest => b :: a :: swapShortBytes k rest
  | _ + 1, buf => buf

/-- Modelled from the spec: `MathTools::IsPow2`, via `nextPow2` — `n` is
a power of two exactly when padding would not change it. -/
def isPow2 (n : ℕ) : Bool :=
  decide (nextPow2 n = n)

/-- The tail of `CreateTexture` after format selection: if padding is
not requested, or the brick extents are already powers of two, upload
the staged bytes directly; otherwise upload the `PadData` result with
the padded extents.  The new volume fills slot 0 and the staging buffer
is dropped (`FreeData`). -/
def uploadStage (el : GLVolumeListElem) (pRawData : List ℕ)
    (iBitWidth iCompCount : ℕ) : Bool × GLVolumeListElem :=
  let vSize := el.brickVoxelCounts
  if ¬ el.m_bIsPaddedToPowerOfTwo
      ∨ (isPow2 vSize.1 ∧ isPow2 vSize.2.1 ∧ isPow2 vSize.2.2) then
    let vol : GLVolume := ⟨vSize.1, vSize.2.1, vSize.2.2,
      el.m_bEmulate3DWith2DStacks, pRawData⟩
    (true, { el.FreeData with volumes := el.volumes.set 0 (some vol) })
  else
    let padded := PadData el.m_bDisableBorder pRawData vSize iBitWidth iCompCount
    let vol : GLVolume := ⟨padded.2.1, padded.2.2.1, padded.2.2.2,
      el.m_bEmulate3DWith2DStacks, padded.1⟩
    (true, { el.FreeData with volumes := el.volumes.set 0 (some vol) })

/-- The format-selection stage of `CreateTexture`: reject a component
count outside {1,3,4} (the `switch (iCompCount)` default: `FreeData`
and failure — the later per-bit-width internal-format switches repeat
the same cases and their defaults are unreachable once this check has
passed); 8-bit data uploads as-is; 16-bit data is byte-swapped per
element when the endianness differs from the host; 32-bit data uploads
as single-channel float (and is never byte-swapped); any other width
fails with `FreeData`. -/
def createTextureStage (el : GLVolumeListElem) (pRawData : List ℕ)
    (iBitWidth iCompCount : ℕ) (bToggleEndian : Bool) : Bool × GLVolumeListElem :=
  let vSize := el.brickVoxelCounts
  if iCompCount ≠ 1 ∧ iCompCount ≠ 3 ∧ iCompCount ≠ 4 then
    (false, el.FreeData)
  else if iBitWidth = 8 then
    uploadStage el pRawData 8 iCompCount
  else if iBitWidth = 16 then
    let staged := if bToggleEndian then
        swapShortBytes (iCompCount * (vSize.1 * vSize.2.1 * vSize.2.2)) pRawData
      else pRawData
    uploadStage el staged 16 iCompCount
  else if iBitWidth = 32 then
    uploadStage el pRawData 32 iCompCount
  else
    (false, el.FreeData)

/-- `GLVolumeListElem::CreateTexture`: optionally free the old texture,
stage the brick bytes (via `LoadData` when the private buffer is empty),
optionally quantize 16-bit data down to 8 bits with the source's
quantizer expression (failing for any other non-8-bit width), then run
format selection and upload.  The in-place quantization write-back is
modelled by passing the modified buffer forward; every exit path drops
the staging buffer. -/
def GLVolumeListElem.CreateTexture (el0 : GLVolumeListElem) (vUploadHub : List ℕ)
    (iIncoreSize : ℕ) (brickBytes : List ℕ) (bDeleteOldTexture : Bool) :
    Bool × GLVolumeListElem :=
  let el1 := if bDeleteOldTexture then el0.FreeTexture else el0
  let el2 := if el1.vData.isEmpty then
      (el1.LoadData vUploadHub iIncoreSize brickBytes).2.1
    else el1
  let pRawData := if el2.m_bUsingHub then brickBytes else el2.vData
  let bToggleEndian := ¬ el2.pDataset.sameEndian
  let iBitWidth := el2.pDataset.bitWidth
  let iCompCount := el2.pDataset.compCount
  if el2.m_bIsDownsampledTo8Bits ∧ iBitWidth ≠ 8 then
    if iBitWidth ≠ 16 then (false, el2.FreeData)
    else
      let vSize := el2.brickVoxelCounts
      let n := vSize.1 * vSize.2.1 * vSize.2.2 * iCompCount
      let quantized := ((List.range n).map (fun i =>
          Int.toNat (quantizeCode (readShort pRawData i)
            el2.pDataset.rangeMin el2.pDataset.rangeMax % 256)))
        ++ pRawData.drop n
      createTextureStage el2 quantized 8 iCompCount bToggleEndian
  else
    createTextureStage el2 pRawData iBitWidth iCompCount bToggleEndian

/-- The `GLVolumeListElem` constructor: the user count starts at 1 (the
creating requester holds the entry), the recency stamps and format
flags come from the arguments, the volume slot starts null and
`CreateTexture` runs immediately; if it fails with a volume left
attached, the texture is freed. -/
def GLVolumeListElem.construct (ds : DatasetInfo) (brickVoxelCounts : ℕ × ℕ × ℕ)
    (bIsPaddedToPowerOfTwo bIsDownsampledTo8Bits bDisableBorder
      bEmulate3DWith2DStacks : Bool)
    (iIntraFrameCounter iFrameCounter : ℕ)
    (vUploadHub : List ℕ) (iIncoreSize : ℕ) (brickBytes : List ℕ) :
    GLVolumeListElem :=
  let el0 : GLVolumeListElem :=
    { pDataset := ds, brickVoxelCounts := brickVoxelCounts, iUserCount := 1,
      m_iIntraFrameCounter := iIntraFrameCounter,
      m_iFrameCounter := iFrameCounter,
      m_bIsPaddedToPowerOfTwo := bIsPaddedToPowerOfTwo,
      m_bIsDownsampledTo8Bits := bIsDownsampledTo8Bits,
      m_bDisableBorder := bDisableBorder,
      m_bEmulate3DWith2DStacks := bEmulate3DWith2DStacks,
      m_bUsingHub := false, volumes := [none], vData := [] }
  let r := el0.CreateTexture vUploadHub iIncoreSize brickBytes false
  if ¬ r.1 ∧ r.2.volumes.headD none ≠ none then r.2.FreeTexture else r.2

/-!
## The dataset registry (`GPUMemMan::LoadDataset` / `FreeDataset`)

`VolumeDataset` construction parses the file (external I/O); it is
modelled as always succeeding (`IsLoaded()` true) and yielding a fresh
instance identity; renderer identities (`AbstrRenderer*`) are opaque
naturals.
-/
/-- A loaded dataset instance: its identity and filename. -/
structure VolumeDataset where
  id : ℕ
  strFilename : String
deriving DecidableEq

/-- Registry element: a dataset and the requesters using it. -/
structure VolDataListElem where
  pVolumeDataset : VolumeDataset
  qpUser : List ℕ
deriving DecidableEq

/-- The GPU memory manager state used by the dataset registry. -/
structure GPUMemMan where
  m_vpVolumeDatasets : List VolDataListElem
  nextDatasetId : ℕ
deriving DecidableEq

/-- The scan of `GPUMemMan::LoadDataset`: the first element with the
requested filename gains `requester` (`push_back`) and its dataset is
returned. -/
def loadDatasetGo : List VolDataListElem → String → ℕ →
    Option (List VolDataListElem × VolumeDataset)
  | [], _, _ => none
  | e :: rest, f, r =>
    if e.pVolumeDataset.strFilename = f then
      some ({ e with qpUser := e.qpUser ++ [r] } :: rest, e.pVolumeDataset)
    else
      match loadDatasetGo rest f r with
      | some (rest', ds) => some (e :: rest', ds)
      | none => none

/-- `GPUMemMan::LoadDataset`: reuse an open dataset with the same
filename, registering the requester as an additional user; otherwise
open the file (always succeeds in the model) and store it with this
single user. -/
def GPUMemMan.LoadDataset (m : GPUMemMan) (strFilename : String)
    (requester : ℕ) : GPUMemMan × Option VolumeDataset :=
  match loadDatasetGo m.m_vpVolumeDatasets strFilename requester with
  | some (l', ds) => ({ m with m_vpVolumeDatasets := l' }, some ds)
  | none =>
    let dataset : VolumeDataset := ⟨m.nextDatasetId, strFilename⟩
    ({ m_vpVolumeDatasets := m.m_vpVolumeDatasets ++ [⟨dataset, [requester]⟩],
       nextDatasetId := m.nextDatasetId + 1 }, some dataset)

/-- The scan of `GPUMemMan::FreeDataset`, transcribed with its inner
loop's unconditional `break`: for an element holding the dataset, only
the FIRST user is compared against `requester`; on a hit that user is
erased and, if no users remain, the element is erased (the dataset is
destroyed); on a miss the `break` leaves the element untouched and the
outer loop continues, falling through to the not-found warning. -/
def freeDatasetGo : List VolDataListElem → VolumeDataset → ℕ →
    List VolDataListElem
  | [], _, _ => []
  | e :: rest, ds, r =>
    if e.pVolumeDataset = ds then
      match e.qpUser with
      | [] => e :: freeDatasetGo rest ds r
      | u :: us =>
        if u = r then
          (if us.isEmpty then rest else { e with qpUser := us } :: rest)
        else e :: freeDatasetGo rest ds r
    else e :: freeDatasetGo rest ds r

/-- `GPUMemMan::FreeDataset` (see `freeDatasetGo`). -/
def GPUMemMan.FreeDataset (m : GPUMemMan) (ds : VolumeDataset) (r : ℕ) :
    GPUMemMan :=
  { m with m_vpVolumeDatasets := freeDatasetGo m.m_vpVolumeDatasets ds r }

/-- A 32-bit single-component brick entry on a dataset whose endianness
disagrees with the host. -/
def elem32 : GLVolumeListElem :=
  { pDataset := ⟨32, 1, false, 0, 255⟩, brickVoxelCounts := (1, 1, 1),
    iUserCount := 0, m_iIntraFrameCounter := 0, m_iFrameCounter := 0,
    m_bIsPaddedToPowerOfTwo := false, m_bIsDownsampledTo8Bits := false,
    m_bDisableBorder := false, m_bEmulate3DWith2DStacks := false,
    m_bUsingHub := false, volumes := [none], vData := [] }

/-- A 16-bit single-component 2×1×1 brick entry on a dataset whose
endianness disagrees with the host. -/
def elem16 : GLVolumeListElem :=
  { pDataset := ⟨16, 1, false, 0, 255⟩, brickVoxelCounts := (2, 1, 1),
    iUserCount := 0, m_iIntraFrameCounter := 0, m_iFrameCounter := 0,
    m_bIsPaddedToPowerOfTwo := false, m_bIsDownsampledTo8Bits := false,
    m_bDisableBorder := false, m_bEmulate3DWith2DStacks := false,
    m_bUsingHub := false, volumes := [none], vData := [] }

/-- A two-component (unsupported) 8-bit brick entry. -/
def elemCC2 : GLVolumeListElem :=
  { pDataset := ⟨8, 2, true, 0, 255⟩, brickVoxelCounts := (1, 1, 1),
    iUserCount := 0, m_iIntraFrameCounter := 0, m_iFrameCounter := 0,
    m_bIsPaddedToPowerOfTwo := false, m_bIsDownsampledTo8Bits := false,
    m_bDisableBorder := false, m_bEmulate3DWith2DStacks := false,
    m_bUsingHub := false, volumes := [none], vData := [] }

/-- An 8-bit 2×2×2 brick entry used to exercise the hub policy. -/
def elemHub : GLVolumeListElem :=
  { pDataset := ⟨8, 1, true, 0, 255⟩, brickVoxelCounts := (2, 2, 2),
    iUserCount := 0, m_iIntraFrameCounter := 0, m_iFrameCounter := 0,
    m_bIsPaddedToPowerOfTwo := false, m_bIsDownsampledTo8Bits := false,
    m_bDisableBorder := false, m_bEmulate3DWith2DStacks := false,
    m_bUsingHub := false, volumes := [none], vData := [] }

/-- An entry in use by one renderer. -/
def elemInUse : GLVolumeListElem :=
  { pDataset := ⟨8, 1, true, 0, 255⟩, brickVoxelCounts := (2, 2, 2),
    iUserCount := 1, m_iIntraFrameCounter := 3, m_iFrameCounter := 3,
    m_bIsPaddedToPowerOfTwo := false, m_bIsDownsampledTo8Bits := false,
    m_bDisableBorder := false, m_bEmulate3DWith2DStacks := false,
    m_bUsingHub := false, volumes := [some ⟨2, 2, 2, false, []⟩], vData := [] }

/-- The dataset behind the three LRU scenario entries. -/
def lruDataset : DatasetInfo := ⟨8, 1, true, 0, 255⟩

/-- Entry A of the spec's LRU scenario: frame 1, intra-frame 5. -/
def lruA : GLVolumeListElem :=
  { pDataset := lruDataset, brickVoxelCounts := (2, 2, 2), iUserCount := 0,
    m_iIntraFrameCounter := 5, m_iFrameCounter := 1,
    m_bIsPaddedToPowerOfTwo := false, m_bIsDownsampledTo8Bits := false,
    m_bDisableBorder := false, m_bEmulate3DWith2DStacks := false,
    m_bUsingHub := false, volumes := [some ⟨2, 2, 2, false, []⟩], vData := [] }

/-- Entry B of the spec's LRU scenario: frame 1, intra-frame 2. -/
def lruB : GLVolumeListElem :=
  { pDataset := lruDataset, brickVoxelCounts := (2, 2, 2), iUserCount := 0,
    m_iIntraFrameCounter := 2, m_iFrameCounter := 1,
    m_bIsPaddedToPowerOfTwo := false, m_bIsDownsampledTo8Bits := false,
    m_bDisableBorder := false, m_bEmulate3DWith2DStacks := false,
    m_bUsingHub := false, volumes := [some ⟨2, 2, 2, false, []⟩], vData := [] }

/-- Entry C of the spec's LRU scenario: frame 2, intra-frame 0. -/
def lruC : GLVolumeListElem :=
  { pDataset := lruDataset, brickVoxelCounts := (2, 2, 2), iUserCount := 0,
    m_iIntraFrameCounter := 0, m_iFrameCounter := 2,
    m_bIsPaddedToPowerOfTwo := false, m_bIsDownsampledTo8Bits := false,
    m_bDisableBorder := false, m_bEmulate3DWith2DStacks := false,
    m_bUsingHub := false, volumes := [some ⟨2, 2, 2, false, []⟩], vData := [] }

instance (el : GLVolumeListElem) (vDim : ℕ × ℕ × ℕ) (p d b s : Bool) :
    Decidable (Matches el vDim p d b s) := by
  unfold Matches
  infer_instance

theorem extract_length {l : List ℕ} {off len : ℕ} (h : off + len ≤ l.length) :
    (extract l off len).length = len := by
  simp only [extract, List.length_take, List.length_drop]
  omega

theorem extract_append_left {a b : List ℕ} {off len : ℕ}
    (h : off + len ≤ a.length) :
    extract (a ++ b) off len = extract a off len := by
  have hoff : off ≤ a.length := by omega
  simp only [extract, List.drop_append_of_le_length hoff]
  have hlen : len ≤ (a.drop off).length := by
    simp [List.length_drop]; omega
  exact List.take_append_of_le_length hlen

theorem extract_append_right (a : List ℕ) {b : List ℕ} (off len : ℕ) :
    extract (a ++ b) (a.length + off) len = extract b off len := by
  simp only [extract]
  rw [← List.drop_drop, List.drop_left]

theorem extract_extract {l : List ℕ} {off n off2 len : ℕ}
    (h : off2 + len ≤ n) :
    extract (extract l off n) off2 len = extract l (off + off2) len := by
  simp only [extract]
  rw [List.drop_take, List.take_take, ← List.drop_drop]
  congr 1
  omega

theorem extract_all (l : List ℕ) : extract l 0 l.length = l := by
  simp [extract]

theorem extract_mid {a b c : List ℕ} (off len : ℕ) (h : off + len ≤ b.length) :
    extract ((a ++ b) ++ c) (a.length + off) len = extract b off len := by
  rw [List.append_assoc, extract_append_right, extract_append_left h]

theorem extract_right2 {a b c : List ℕ} (off len : ℕ) :
    extract ((a ++ b) ++ c) (a.length + b.length + off) len = extract c off len := by
  rw [show a.length + b.length + off = (a ++ b).length + off by
    simp, extract_append_right]

theorem extract_self {l : List ℕ} {len : ℕ} (h : l.length = len) :
    extract l 0 len = l := by
  rw [← h, extract_all]

theorem extract_replicate_self (n : ℕ) :
    extract (List.replicate n (0:ℕ)) 0 n = List.replicate n 0 :=
  extract_self (List.length_replicate n 0)

/-- Extracting within the `i`-th block of a flattening of uniform-length
blocks reads from that block alone. -/
theorem extract_flatten_uniform (L : ℕ) :
    ∀ (n : ℕ) (g : ℕ → List ℕ), (∀ j, j < n → (g j).length = L) →
      ∀ i off len, i < n → off + len ≤ L →
      extract (List.flatten ((List.range n).map g)) (i * L + off) len =
        extract (g i) off len := by
  intro n
  induction n with
  | zero => intro g _ i off len hi _; omega
  | succ m ih =>
    intro g hlen i off len hi hol
    rw [List.range_succ_eq_map]
    simp only [List.map_cons, List.map_map, List.flatten_cons]
    cases i with
    | zero =>
      have h0l : (g 0).length = L := hlen 0 (Nat.succ_pos m)
      rw [Nat.zero_mul, Nat.zero_add, extract_append_left (by omega)]
    | succ j =>
      have hsplit : (j + 1) * L + off = (g 0).length + (j * L + off) := by
        rw [hlen 0 (Nat.succ_pos m)]; ring
      rw [hsplit, extract_append_right]
      exact ih (fun k => g (k + 1))
        (fun k hk => hlen (k + 1) (by omega))
        j off len (by omega) hol

/-- Flattening the consecutive `k`-byte chunks of `l` rebuilds `l`. -/
theorem flatten_chunks :
    ∀ (n : ℕ) (l : List ℕ) (k : ℕ), l.length = n * k →
      List.flatten ((List.range n).map (fun i => extract l (i * k) k)) = l := by
  intro n
  induction n with
  | zero => intro l k h; simpa using (List.eq_nil_of_length_eq_zero (by omega)).symm
  | succ m ih =>
    intro l k h
    rw [List.range_succ_eq_map]
    simp only [List.map_cons, List.map_map, List.flatten_cons]
    have hmap : List.map ((fun i => extract l (i * k) k) ∘ Nat.succ) (List.range m)
        = List.map (fun i => extract (l.drop k) (i * k) k) (List.range m) := by
      apply List.map_congr_left
      intro i _
      simp only [Function.comp, extract, List.drop_drop]
      congr 2
      rw [Nat.succ_mul]
      ring
    have hlen : (l.drop k).length = m * k := by
      rw [List.length_drop, h, Nat.succ_mul]
      omega
    rw [hmap, ih (l.drop k) k hlen]
    simp only [extract, Nat.zero_mul, List.drop_zero]
    exact List.take_append_drop k l

theorem flatten_uniform_length (f : ℕ → List ℕ) (L : ℕ) :
    ∀ n, (∀ j, j < n → (f j).length = L) →
      (List.flatten ((List.range n).map f)).length = n * L := by
  intro n
  induction n with
  | zero => simp
  | succ m ih =>
    intro hlen
    rw [List.range_succ]
    simp only [List.map_append, List.map_cons, List.map_nil,
      List.flatten_append, List.flatten_cons, List.flatten_nil,
      List.length_append, List.append_nil]
    rw [ih (fun j hj => hlen j (by omega)), hlen m (by omega)]
    ring

theorem nextPow2Aux_pow2 (n k : ℕ) :
    ∀ fuel j, j ≤ k → n = 2 ^ k → k - j ≤ fuel →
      nextPow2Aux n fuel (2 ^ j) = 2 ^ k := by
  intro fuel
  induction fuel with
  | zero =>
    intro j hj hn hf
    have : j = k := by omega
    subst this hn
    rfl
  | succ m ih =>
    intro j hj hn hf
    rw [nextPow2Aux]
    by_cases hle : n ≤ 2 ^ j
    · rw [if_pos hle]
      have : (2:ℕ) ^ k ≤ 2 ^ j := hn ▸ hle
      have hkj : k ≤ j := (Nat.pow_le_pow_iff_right (by omega)).mp this
      have : j = k := by omega
      rw [this]
    · rw [if_neg hle]
      have hjk : j < k := by
        by_contra hc
        exact hle (hn ▸ Nat.pow_le_pow_right (by omega) (by omega))
      have : 2 * 2 ^ j = 2 ^ (j + 1) := by ring
      rw [this]
      exact ih (j + 1) (by omega) hn (by omega)

/-- `nextPow2` fixes powers of two. -/
theorem nextPow2_pow2 (k : ℕ) : nextPow2 (2 ^ k) = 2 ^ k := by
  have h1 : (1:ℕ) = 2 ^ 0 := rfl
  rw [nextPow2, h1]
  exact nextPow2Aux_pow2 (2 ^ k) k (2 ^ k) 0 (Nat.zero_le k) rfl
    (by have := Nat.lt_two_pow k; omega)

theorem nextPow2Aux_ge (n : ℕ) :
    ∀ fuel acc, n ≤ 2 ^ fuel * acc → n ≤ nextPow2Aux n fuel acc := by
  intro fuel
  induction fuel with
  | zero => intro acc h; simpa [nextPow2Aux] using h
  | succ m ih =>
    intro acc h
    rw [nextPow2Aux]
    by_cases hle : n ≤ acc
    · rwa [if_pos hle]
    · rw [if_neg hle]
      apply ih
      calc n ≤ 2 ^ (m + 1) * acc := h
        _ = 2 ^ m * (2 * acc) := by ring

/-- The padded extent is never smaller than the source extent. -/
theorem nextPow2_ge (n : ℕ) : n ≤ nextPow2 n := by
  apply nextPow2Aux_ge
  have := Nat.lt_two_pow n
  omega

theorem padRow_eq_self (bDisableBorder : Bool) (row : List ℕ)
    (iElementSize iRowSizeSource : ℕ) :
    padRow bDisableBorder row iElementSize iRowSizeSource iRowSizeSource = row := by
  simp [padRow]

theorem padRow_length {row : List ℕ} {iElementSize iRowSizeSource iRowSizeTarget : ℕ}
    (bDisableBorder : Bool)
    (hrow : row.length = iRowSizeSource)
    (helem : iElementSize ≤ iRowSizeSource)
    (hst : iRowSizeSource ≤ iRowSizeTarget)
    (hgap : iRowSizeSource < iRowSizeTarget → iRowSizeSource + iElementSize ≤ iRowSizeTarget) :
    (padRow bDisableBorder row iElementSize iRowSizeSource iRowSizeTarget).length
      = iRowSizeTarget := by
  unfold padRow
  by_cases hc : ¬bDisableBorder ∧ iRowSizeSource < iRowSizeTarget
  · have hdup : (extract row (iRowSizeSource - iElementSize) iElementSize).length
        = iElementSize := extract_length (by omega)
    simp only [if_pos hc, List.length_append, List.length_replicate, hrow, hdup]
    have := hgap hc.2
    omega
  · simp only [if_neg hc, List.length_append, List.length_replicate, hrow,
      List.length_nil]
    omega

theorem srcRow_offset_le {z y sZ sY rowS : ℕ} (hz : z < sZ) (hy : y < sY) :
    (z * sY + y) * rowS + rowS ≤ sZ * (sY * rowS) := by
  have h1 : z * sY + y + 1 ≤ sZ * sY := by
    calc z * sY + y + 1 ≤ z * sY + sY := by omega
      _ = (z + 1) * sY := by ring
      _ ≤ sZ * sY := Nat.mul_le_mul_right sY hz
  calc (z * sY + y) * rowS + rowS = (z * sY + y + 1) * rowS := by ring
    _ ≤ (sZ * sY) * rowS := Nat.mul_le_mul_right rowS h1
    _ = sZ * (sY * rowS) := by ring

theorem srcRow_length {pRawData : List ℕ} {rowS sY sZ z y : ℕ}
    (hlen : pRawData.length = sZ * (sY * rowS)) (hz : z < sZ) (hy : y < sY) :
    (srcRow pRawData rowS sY z y).length = rowS :=
  extract_length (by rw [hlen]; exact srcRow_offset_le hz hy)

theorem padPlane_length {pRawData : List ℕ}
    {sY iElementSize iRowSizeSource iRowSizeTarget pY z sZ : ℕ} (bDisableBorder : Bool)
    (hlen : pRawData.length = sZ * (sY * iRowSizeSource)) (hz : z < sZ) (hsY : 0 < sY)
    (helem : iElementSize ≤ iRowSizeSource)
    (hst : iRowSizeSource ≤ iRowSizeTarget)
    (hgap : iRowSizeSource < iRowSizeTarget →
      iRowSizeSource + iElementSize ≤ iRowSizeTarget)
    (hpy : sY ≤ pY) :
    (padPlane bDisableBorder pRawData sY iElementSize iRowSizeSource
      iRowSizeTarget pY z).length = pY * iRowSizeTarget := by
  unfold padPlane
  have hrows : (List.flatten ((List.range sY).map (fun y =>
      padRow bDisableBorder (srcRow pRawData iRowSizeSource sY z y)
        iElementSize iRowSizeSource iRowSizeTarget))).length
      = sY * iRowSizeTarget := by
    apply flatten_uniform_length
    intro y hylt
    exact padRow_length bDisableBorder (srcRow_length hlen hz hylt) helem hst hgap
  by_cases hcase : sY < pY
  · obtain ⟨q, hq⟩ : ∃ q, pY = sY + 1 + q := ⟨pY - sY - 1, by omega⟩
    have hy1 : sY - 1 < sY := by omega
    have hdup : (if bDisableBorder then List.replicate iRowSizeTarget 0
        else padRow bDisableBorder (srcRow pRawData iRowSizeSource sY z (sY - 1))
          iElementSize iRowSizeSource iRowSizeTarget).length = iRowSizeTarget := by
      cases bDisableBorder with
      | true => simp
      | false =>
        simp only [Bool.false_eq_true, if_false]
        exact padRow_length false (srcRow_length hlen hz hy1) helem hst hgap
    simp only [if_pos hcase, List.length_append, List.length_replicate, hrows, hdup]
    have hq1 : pY - sY - 1 = q := by omega
    rw [hq1, hq]
    ring
  · have hpe : sY = pY := by omega
    rw [if_neg hcase, List.append_nil, hrows, hpe]

/-- C8: on a brick whose extents are already powers of two, `PadData` is
the identity: the output bytes equal the input bytes and the size is
unchanged, for either value of the border flag. -/
theorem PadData_pow2_identity (bDisableBorder : Bool) (pRawData : List ℕ)
    (sX sY sZ iBitWidth iCompCount kx ky kz : ℕ)
    (hx : sX = 2 ^ kx) (hy : sY = 2 ^ ky) (hz : sZ = 2 ^ kz)
    (hlen : pRawData.length = sZ * (sY * (sX * (iBitWidth / 8 * iCompCount)))) :
    PadData bDisableBorder pRawData (sX, sY, sZ) iBitWidth iCompCount
      = (pRawData, (sX, sY, sZ)) := by
  have hpx : nextPow2 sX = sX := by rw [hx]; exact nextPow2_pow2 kx
  have hpy : nextPow2 sY = sY := by rw [hy]; exact nextPow2_pow2 ky
  have hpz : nextPow2 sZ = sZ := by rw [hz]; exact nextPow2_pow2 kz
  simp only [PadData, hpx, hpy, hpz, lt_irrefl, if_false, List.append_nil]
  set e := iBitWidth / 8 * iCompCount with he
  set rowS := sX * e with hrowS
  have hplane : ∀ z ∈ List.range sZ,
      padPlane bDisableBorder pRawData sY e rowS rowS sY z
        = extract pRawData (z * (sY * rowS)) (sY * rowS) := by
    intro z hzmem
    have hzlt : z < sZ := List.mem_range.mp hzmem
    unfold padPlane
    rw [if_neg (lt_irrefl sY), List.append_nil]
    simp only [padRow_eq_self]
    have hinner : ∀ y ∈ List.range sY,
        srcRow pRawData rowS sY z y
          = extract (extract pRawData (z * (sY * rowS)) (sY * rowS)) (y * rowS) rowS := by
      intro y hymem
      have hylt : y < sY := List.mem_range.mp hymem
      rw [extract_extract (by
        calc y * rowS + rowS = (y + 1) * rowS := by ring
          _ ≤ sY * rowS := Nat.mul_le_mul_right rowS hylt)]
      unfold srcRow
      congr 1
      ring
    rw [List.map_congr_left hinner]
    apply flatten_chunks
    apply extract_length
    rw [hlen]
    calc z * (sY * rowS) + sY * rowS = (z + 1) * (sY * rowS) := by ring
      _ ≤ sZ * (sY * rowS) := Nat.mul_le_mul_right _ hzlt
  rw [List.map_congr_left hplane, flatten_chunks sZ pRawData (sY * rowS) hlen]

/-- With the border enabled and x-padding present, the first padding
element of a target row is a copy of the last source element. -/
theorem padRow_dup_extract {row : List ℕ} {e rowS rowT : ℕ}
    (hrow : row.length = rowS) (he : e ≤ rowS) (hst : rowS < rowT) :
    extract (padRow false row e rowS rowT) rowS e = extract row (rowS - e) e := by
  unfold padRow
  have hc : ¬(false : Bool) ∧ rowS < rowT := ⟨by simp, hst⟩
  rw [if_pos hc]
  have hdl : (extract row (rowS - e) e).length = e :=
    extract_length (by rw [hrow]; omega)
  have hmid := extract_mid (a := row) (b := extract row (rowS - e) e)
    (c := List.replicate (rowT - (rowS + (extract row (rowS - e) e).length)) 0)
    0 e (by omega)
  rw [hrow, Nat.add_zero] at hmid
  rw [hmid, extract_self hdl]

/-- With the border enabled and x-padding present, the x-padding of a
target row beyond the duplicated element is zero-filled. -/
theorem padRow_zeros_extract {row : List ℕ} {e rowS rowT : ℕ}
    (hrow : row.length = rowS) (he : e ≤ rowS) (hst : rowS < rowT) :
    extract (padRow false row e rowS rowT) (rowS + e) (rowT - (rowS + e))
      = List.replicate (rowT - (rowS + e)) 0 := by
  unfold padRow
  have hc : ¬(false : Bool) ∧ rowS < rowT := ⟨by simp, hst⟩
  rw [if_pos hc]
  have hdl : (extract row (rowS - e) e).length = e :=
    extract_length (by rw [hrow]; omega)
  have hr2 := extract_right2 (a := row) (b := extract row (rowS - e) e)
    (c := List.replicate (rowT - (rowS + (extract row (rowS - e) e).length)) 0)
    0 (rowT - (rowS + e))
  rw [hrow, hdl, Nat.add_zero] at hr2
  simp only [hdl]
  rw [hr2, extract_replicate_self]

/-- Reading a whole `padRow` back out of a segment view. -/
theorem padRow_extract_all {row : List ℕ} {e rowS rowT : ℕ} (bDisableBorder : Bool)
    (hrow : row.length = rowS) (he : e ≤ rowS) (hst : rowS ≤ rowT)
    (hgap : rowS < rowT → rowS + e ≤ rowT) :
    extract (padRow bDisableBorder row e rowS rowT) 0 rowT
      = padRow bDisableBorder row e rowS rowT :=
  extract_self (padRow_length bDisableBorder hrow he hst hgap)

/-- A segment that lies inside target plane `z < vSize[2]` of the
`PadData` output is read from `padPlane` at `z`. -/
theorem extract_PadData_plane {pRawData : List ℕ}
    {sX sY sZ iBitWidth iCompCount e rowS rowT pX pY : ℕ}
    (he : e = iBitWidth / 8 * iCompCount)
    (hpX : pX = nextPow2 sX) (hpY : pY = nextPow2 sY)
    (hrowS : rowS = sX * e) (hrowT : rowT = pX * e)
    (hlen : pRawData.length = sZ * (sY * rowS))
    (hsX : 0 < sX) (hsY : 0 < sY)
    {z off len : ℕ} (hz : z < sZ) (hol : off + len ≤ pY * rowT) :
    extract (PadData false pRawData (sX, sY, sZ) iBitWidth iCompCount).1
        (z * (pY * rowT) + off) len
      = extract (padPlane false pRawData sY e rowS rowT pY z) off len := by
  have hsx_le : sX ≤ pX := by rw [hpX]; exact nextPow2_ge sX
  have hsy_le : sY ≤ pY := by rw [hpY]; exact nextPow2_ge sY
  have helem : e ≤ rowS := by rw [hrowS]; exact Nat.le_mul_of_pos_left e hsX
  have hst : rowS ≤ rowT := by
    rw [hrowS, hrowT]; exact Nat.mul_le_mul_right e hsx_le
  have hgap : rowS < rowT → rowS + e ≤ rowT := by
    intro hlt
    have hxlt : sX < pX := by
      by_contra hcon
      have hle : pX ≤ sX := by omega
      have := Nat.mul_le_mul_right e hle
      rw [← hrowS, ← hrowT] at this
      omega
    calc rowS + e = (sX + 1) * e := by rw [hrowS]; ring
      _ ≤ pX * e := Nat.mul_le_mul_right e (by omega)
      _ = rowT := hrowT.symm
  have hplen : ∀ j, j < sZ →
      (padPlane false pRawData sY e rowS rowT pY j).length = pY * rowT :=
    fun j hj => padPlane_length false hlen hj hsY helem hst hgap hsy_le
  simp only [PadData]
  rw [← he, ← hpX, ← hpY, ← hrowS, ← hrowT]
  have hbound : z * (pY * rowT) + off + len ≤
      (List.flatten ((List.range sZ).map
        (padPlane false pRawData sY e rowS rowT pY))).length := by
    rw [flatten_uniform_length _ (pY * rowT) sZ hplen]
    calc z * (pY * rowT) + off + len ≤ z * (pY * rowT) + pY * rowT := by omega
      _ = (z + 1) * (pY * rowT) := by ring
      _ ≤ sZ * (pY * rowT) := Nat.mul_le_mul_right _ hz
  rw [extract_append_left hbound]
  exact extract_flatten_uniform (pY * rowT) sZ _ hplen z off len hz hol

/-- A segment that lies inside target row `y < vSize[1]` of a target
plane is read from `padRow` of the matching source row. -/
theorem extract_padPlane_row {pRawData : List ℕ} {sY sZ e rowS rowT pY : ℕ}
    (hlen : pRawData.length = sZ * (sY * rowS))
    (helem : e ≤ rowS) (hst : rowS ≤ rowT)
    (hgap : rowS < rowT → rowS + e ≤ rowT)
    {z y off len : ℕ} (hz : z < sZ) (hy : y < sY) (hol : off + len ≤ rowT) :
    extract (padPlane false pRawData sY e rowS rowT pY z) (y * rowT + off) len
      = extract (padRow false (srcRow pRawData rowS sY z y) e rowS rowT) off len := by
  simp only [padPlane]
  have hrowlen : ∀ j, j < sY →
      (padRow false (srcRow pRawData rowS sY z j) e rowS rowT).length = rowT :=
    fun j hj => padRow_length false (srcRow_length hlen hz hj) helem hst hgap
  have hbound : y * rowT + off + len ≤
      (List.flatten ((List.range sY).map (fun j =>
        padRow false (srcRow pRawData rowS sY z j) e rowS rowT))).length := by
    rw [flatten_uniform_length _ rowT sY hrowlen]
    calc y * rowT + off + len ≤ y * rowT + rowT := by omega
      _ = (y + 1) * rowT := by ring
      _ ≤ sY * rowT := Nat.mul_le_mul_right _ hy
  rw [extract_append_left hbound]
  exact extract_flatten_uniform rowT sY _ hrowlen y off len hy hol

/-- With the border enabled and y-padding present, target row `vSize[1]`
of a plane is a copy of the (padded) last source row. -/
theorem padPlane_duprow_extract {pRawData : List ℕ} {sY sZ e rowS rowT pY : ℕ}
    (hlen : pRawData.length = sZ * (sY * rowS))
    (helem : e ≤ rowS) (hst : rowS ≤ rowT)
    (hgap : rowS < rowT → rowS + e ≤ rowT)
    {z : ℕ} (hz : z < sZ) (hsY : 0 < sY) (hYlt : sY < pY) :
    extract (padPlane false pRawData sY e rowS rowT pY z) (sY * rowT) rowT
      = padRow false (srcRow pRawData rowS sY z (sY - 1)) e rowS rowT := by
  simp only [padPlane]
  rw [if_pos hYlt, if_neg Bool.false_ne_true]
  set rows := List.flatten ((List.range sY).map (fun j =>
    padRow false (srcRow pRawData rowS sY z j) e rowS rowT)) with hrowsdef
  set dupR := padRow false (srcRow pRawData rowS sY z (sY - 1)) e rowS rowT with hdupdef
  set zr := List.replicate ((pY - sY - 1) * rowT) (0:ℕ) with hzrdef
  have hrows_len : rows.length = sY * rowT := by
    rw [hrowsdef]
    exact flatten_uniform_length _ rowT sY
      (fun j hj => padRow_length false (srcRow_length hlen hz hj) helem hst hgap)
  have hdup_len : dupR.length = rowT := by
    rw [hdupdef]
    exact padRow_length false (srcRow_length hlen hz (by omega)) helem hst hgap
  have h1 := extract_append_right rows (b := dupR ++ zr) 0 rowT
  rw [Nat.add_zero, hrows_len] at h1
  have h3 : extract (dupR ++ zr) 0 rowT = extract dupR 0 rowT :=
    extract_append_left (by rw [hdup_len]; omega)
  rw [h1, h3, extract_self hdup_len]

/-- When y-padding is present, the target rows of a plane beyond row
`vSize[1]` are zero-filled. -/
theorem padPlane_yzeros_extract {pRawData : List ℕ} {sY sZ e rowS rowT pY : ℕ}
    (hlen : pRawData.length = sZ * (sY * rowS))
    (helem : e ≤ rowS) (hst : rowS ≤ rowT)
    (hgap : rowS < rowT → rowS + e ≤ rowT)
    {z : ℕ} (hz : z < sZ) (hsY : 0 < sY) (hYlt : sY < pY) :
    extract (padPlane false pRawData sY e rowS rowT pY z)
        ((sY + 1) * rowT) ((pY - sY - 1) * rowT)
      = List.replicate ((pY - sY - 1) * rowT) 0 := by
  simp only [padPlane]
  rw [if_pos hYlt, if_neg Bool.false_ne_true]
  set rows := List.flatten ((List.range sY).map (fun j =>
    padRow false (srcRow pRawData rowS sY z j) e rowS rowT)) with hrowsdef
  set dupR := padRow false (srcRow pRawData rowS sY z (sY - 1)) e rowS rowT with hdupdef
  set zr := List.replicate ((pY - sY - 1) * rowT) (0:ℕ) with hzrdef
  have hrows_len : rows.length = sY * rowT := by
    rw [hrowsdef]
    exact flatten_uniform_length _ rowT sY
      (fun j hj => padRow_length false (srcRow_length hlen hz hj) helem hst hgap)
  have hdup_len : dupR.length = rowT := by
    rw [hdupdef]
    exact padRow_length false (srcRow_length hlen hz (by omega)) helem hst hgap
  have h1 := extract_append_right rows (b := dupR ++ zr)
    (dupR.length + 0) ((pY - sY - 1) * rowT)
  have h2 := extract_append_right dupR (b := zr) 0 ((pY - sY - 1) * rowT)
  rw [Nat.add_zero] at h1 h2
  have hoff : (sY + 1) * rowT = rows.length + dupR.length := by
    rw [hrows_len, hdup_len]; ring
  have hzlen : zr.length = (pY - sY - 1) * rowT := by
    rw [hzrdef]; exact List.length_replicate _ _
  rw [hoff, h1, h2, extract_self hzlen]

theorem pad_geometry {sX e rowS rowT pX : ℕ}
    (hrowS : rowS = sX * e) (hrowT : rowT = pX * e)
    (hsX : 0 < sX) (hsx_le : sX ≤ pX) :
    e ≤ rowS ∧ rowS ≤ rowT ∧ (rowS < rowT → rowS + e ≤ rowT) := by
  refine ⟨by rw [hrowS]; exact Nat.le_mul_of_pos_left e hsX,
    by rw [hrowS, hrowT]; exact Nat.mul_le_mul_right e hsx_le, ?_⟩
  intro hlt
  have hxlt : sX < pX := by
    by_contra hcon
    have hle : pX ≤ sX := by omega
    have := Nat.mul_le_mul_right e hle
    rw [← hrowS, ← hrowT] at this
    omega
  calc rowS + e = (sX + 1) * e := by rw [hrowS]; ring
    _ ≤ pX * e := Nat.mul_le_mul_right e (by omega)
    _ = rowT := hrowT.symm

/-- With the border enabled and z-padding present, target plane
`vSize[2]` of the `PadData` output is a copy of the (padded) last
source plane. -/
theorem PadData_dupplane_extract {pRawData : List ℕ}
    {sX sY sZ iBitWidth iCompCount e rowS rowT pX pY pZ : ℕ}
    (he : e = iBitWidth / 8 * iCompCount)
    (hpX : pX = nextPow2 sX) (hpY : pY = nextPow2 sY) (hpZ : pZ = nextPow2 sZ)
    (hrowS : rowS = sX * e) (hrowT : rowT = pX * e)
    (hlen : pRawData.length = sZ * (sY * rowS))
    (hsX : 0 < sX) (hsY : 0 < sY) (hsZ : 0 < sZ) (hZlt : sZ < pZ) :
    extract (PadData false pRawData (sX, sY, sZ) iBitWidth iCompCount).1
        (sZ * (pY * rowT)) (pY * rowT)
      = padPlane false pRawData sY e rowS rowT pY (sZ - 1) := by
  have hsx_le : sX ≤ pX := by rw [hpX]; exact nextPow2_ge sX
  have hsy_le : sY ≤ pY := by rw [hpY]; exact nextPow2_ge sY
  obtain ⟨helem, hst, hgap⟩ := pad_geometry hrowS hrowT hsX hsx_le
  have hplen : ∀ j, j < sZ →
      (padPlane false pRawData sY e rowS rowT pY j).length = pY * rowT :=
    fun j hj => padPlane_length false hlen hj hsY helem hst hgap hsy_le
  simp only [PadData]
  rw [← he, ← hpX, ← hpY, ← hpZ, ← hrowS, ← hrowT]
  rw [if_pos hZlt, if_neg Bool.false_ne_true]
  set planes := List.flatten ((List.range sZ).map
    (padPlane false pRawData sY e rowS rowT pY)) with hplanesdef
  set dupP := padPlane false pRawData sY e rowS rowT pY (sZ - 1) with hdupdef
  set zpl := List.replicate ((pZ - sZ - 1) * (pY * rowT)) (0:ℕ) with hzpldef
  have hplanes_len : planes.length = sZ * (pY * rowT) := by
    rw [hplanesdef]
    exact flatten_uniform_length _ (pY * rowT) sZ hplen
  have hdup_len : dupP.length = pY * rowT := by
    rw [hdupdef]
    exact hplen (sZ - 1) (by omega)
  have h1 := extract_append_right planes (b := dupP ++ zpl) 0 (pY * rowT)
  rw [Nat.add_zero, hplanes_len] at h1
  have h3 : extract (dupP ++ zpl) 0 (pY * rowT) = extract dupP 0 (pY * rowT) :=
    extract_append_left (by rw [hdup_len]; omega)
  rw [h1, h3, extract_self hdup_len]

/-- When z-padding is present, the target planes beyond plane `vSize[2]`
are zero-filled. -/
theorem PadData_zzeros_extract {pRawData : List ℕ}
    {sX sY sZ iBitWidth iCompCount e rowS rowT pX pY pZ : ℕ}
    (he : e = iBitWidth / 8 * iCompCount)
    (hpX : pX = nextPow2 sX) (hpY : pY = nextPow2 sY) (hpZ : pZ = nextPow2 sZ)
    (hrowS : rowS = sX * e) (hrowT : rowT = pX * e)
    (hlen : pRawData.length = sZ * (sY * rowS))
    (hsX : 0 < sX) (hsY : 0 < sY) (hsZ : 0 < sZ) (hZlt : sZ < pZ) :
    extract (PadData false pRawData (sX, sY, sZ) iBitWidth iCompCount).1
        ((sZ + 1) * (pY * rowT)) ((pZ - sZ - 1) * (pY * rowT))
      = List.replicate ((pZ - sZ - 1) * (pY * rowT)) 0 := by
  have hsx_le : sX ≤ pX := by rw [hpX]; exact nextPow2_ge sX
  have hsy_le : sY ≤ pY := by rw [hpY]; exact nextPow2_ge sY
  obtain ⟨helem, hst, hgap⟩ := pad_geometry hrowS hrowT hsX hsx_le
  have hplen : ∀ j, j < sZ →
      (padPlane false pRawData sY e rowS rowT pY j).length = pY * rowT :=
    fun j hj => padPlane_length false hlen hj hsY helem hst hgap hsy_le
  simp only [PadData]
  rw [← he, ← hpX, ← hpY, ← hpZ, ← hrowS, ← hrowT]
  rw [if_pos hZlt, if_neg Bool.false_ne_true]
  set planes := List.flatten ((List.range sZ).map
    (padPlane false pRawData sY e rowS rowT pY)) with hplanesdef
  set dupP := padPlane false pRawData sY e rowS rowT pY (sZ - 1) with hdupdef
  set zpl := List.replicate ((pZ - sZ - 1) * (pY * rowT)) (0:ℕ) with hzpldef
  have hplanes_len : planes.length = sZ * (pY * rowT) := by
    rw [hplanesdef]
    exact flatten_uniform_length _ (pY * rowT) sZ hplen
  have hdup_len : dupP.length = pY * rowT := by
    rw [hdupdef]
    exact hplen (sZ - 1) (by omega)
  have h1 := extract_append_right planes (b := dupP ++ zpl)
    (dupP.length + 0) ((pZ - sZ - 1) * (pY * rowT))
  have h2 := extract_append_right dupP (b := zpl) 0 ((pZ - sZ - 1) * (pY * rowT))
  rw [Nat.add_zero] at h1 h2
  have hoff : (sZ + 1) * (pY * rowT) = planes.length + dupP.length := by
    rw [hplanes_len, hdup_len]; ring
  have hzlen : zpl.length = (pZ - sZ - 1) * (pY * rowT) := by
    rw [hzpldef]; exact List.length_replicate _ _
  rw [hoff, h1, h2, extract_self hzlen]

/-- C2 as stated is false: `PadData` does not clamp the whole padding
region.  For the 5×3×3 brick (8-bit, one component) holding bytes
1..45, the padded x-row is `[1,2,3,4,5,5,0,0]`: the padded voxel at
x = 6 is 0, not the nearest in-bounds voxel at x = 4 (value 5). -/
theorem PadData_whole_region_counterexample :
    (PadData false ((List.range 45).map (· + 1)) (5, 3, 3) 8 1).1.getD 6 0 = 0
    ∧ ((List.range 45).map (· + 1)).getD 4 0 = 5
    ∧ (PadData false ((List.range 45).map (· + 1)) (5, 3, 3) 8 1).1.getD 6 0
      ≠ ((List.range 45).map (· + 1)).getD 4 0 := by
  decide

/-- C2, amended.  With the border enabled (`m_bDisableBorder = false`)
`PadData` replicates exactly one layer: whenever an axis is padded, the
first padding element of every row copies the last source element, the
first padding row of every plane copies the (padded) last source row and
the first padding plane copies the (padded) last source plane; all
padding beyond that first layer stays zero-filled. -/
theorem PadData_border_replicates_one_layer
    (pRawData : List ℕ) (sX sY sZ iBitWidth iCompCount e rowS rowT pX pY pZ : ℕ)
    (out : List ℕ)
    (he : e = iBitWidth / 8 * iCompCount)
    (hpX : pX = nextPow2 sX) (hpY : pY = nextPow2 sY) (hpZ : pZ = nextPow2 sZ)
    (hrowS : rowS = sX * e) (hrowT : rowT = pX * e)
    (hout : out = (PadData false pRawData (sX, sY, sZ) iBitWidth iCompCount).1)
    (hlen : pRawData.length = sZ * (sY * rowS))
    (hsX : 0 < sX) (hsY : 0 < sY) (hsZ : 0 < sZ) (he0 : 0 < e)
    (z y : ℕ) (hz : z < sZ) (hy : y < sY) :
    (sX < pX →
      extract out ((z * pY + y) * rowT + rowS) e
          = extract pRawData ((z * sY + y) * rowS + (rowS - e)) e
        ∧ extract out ((z * pY + y) * rowT + rowS + e) (rowT - (rowS + e))
          = List.replicate (rowT - (rowS + e)) 0)
    ∧ (sY < pY →
      extract out ((z * pY + sY) * rowT) rowT
          = extract out ((z * pY + (sY - 1)) * rowT) rowT
        ∧ extract out ((z * pY + sY + 1) * rowT) ((pY - sY - 1) * rowT)
          = List.replicate ((pY - sY - 1) * rowT) 0)
    ∧ (sZ < pZ →
      extract out (sZ * (pY * rowT)) (pY * rowT)
          = extract out ((sZ - 1) * (pY * rowT)) (pY * rowT)
        ∧ extract out ((sZ + 1) * (pY * rowT)) ((pZ - sZ - 1) * (pY * rowT))
          = List.replicate ((pZ - sZ - 1) * (pY * rowT)) 0) := by
  subst hout
  have hsx_le : sX ≤ pX := by rw [hpX]; exact nextPow2_ge sX
  have hsy_le : sY ≤ pY := by rw [hpY]; exact nextPow2_ge sY
  obtain ⟨helem, hst, hgap⟩ := pad_geometry hrowS hrowT hsX hsx_le
  refine ⟨?_, ?_, ?_⟩
  · -- x-padding: one duplicated element, zeros beyond
    intro hXlt
    have hrowlt : rowS < rowT := by
      rw [hrowS, hrowT]
      exact Nat.mul_lt_mul_of_lt_of_le hXlt (Nat.le_refl e) he0
    have hse : rowS + e ≤ rowT := hgap hrowlt
    constructor
    · have ha1 : (z * pY + y) * rowT + rowS = z * (pY * rowT) + (y * rowT + rowS) := by
        ring
      rw [ha1, extract_PadData_plane he hpX hpY hrowS hrowT hlen hsX hsY hz
        (by calc y * rowT + rowS + e ≤ y * rowT + rowT := by omega
              _ = (y + 1) * rowT := by ring
              _ ≤ pY * rowT := Nat.mul_le_mul_right _ (by omega))]
      rw [extract_padPlane_row hlen helem hst hgap hz hy (by omega)]
      rw [padRow_dup_extract (srcRow_length hlen hz hy) helem hrowlt]
      unfold srcRow
      rw [extract_extract (by omega)]
    · have ha2 : (z * pY + y) * rowT + rowS + e
          = z * (pY * rowT) + (y * rowT + (rowS + e)) := by ring
      rw [ha2, extract_PadData_plane he hpX hpY hrowS hrowT hlen hsX hsY hz
        (by calc y * rowT + (rowS + e) + (rowT - (rowS + e))
              = y * rowT + rowT := by omega
          _ = (y + 1) * rowT := by ring
          _ ≤ pY * rowT := Nat.mul_le_mul_right _ (by omega))]
      rw [extract_padPlane_row hlen helem hst hgap hz hy (by omega)]
      exact padRow_zeros_extract (srcRow_length hlen hz hy) helem hrowlt
  · -- y-padding: one duplicated row, zero rows beyond
    intro hYlt
    constructor
    · have hb1 : (z * pY + sY) * rowT = z * (pY * rowT) + sY * rowT := by ring
      have hb2 : (z * pY + (sY - 1)) * rowT
          = z * (pY * rowT) + ((sY - 1) * rowT + 0) := by ring
      rw [hb1, hb2]
      rw [extract_PadData_plane he hpX hpY hrowS hrowT hlen hsX hsY hz
        (by calc sY * rowT + rowT = (sY + 1) * rowT := by ring
              _ ≤ pY * rowT := Nat.mul_le_mul_right _ (by omega))]
      rw [extract_PadData_plane he hpX hpY hrowS hrowT hlen hsX hsY hz
        (by calc (sY - 1) * rowT + 0 + rowT = ((sY - 1) + 1) * rowT := by ring
              _ = sY * rowT := by rw [show sY - 1 + 1 = sY by omega]
              _ ≤ pY * rowT := Nat.mul_le_mul_right _ hsy_le)]
      rw [extract_padPlane_row hlen helem hst hgap hz (by omega) (by omega)]
      rw [padRow_extract_all false (srcRow_length hlen hz (by omega)) helem hst hgap]
      exact padPlane_duprow_extract hlen helem hst hgap hz hsY hYlt
    · have hb3 : (z * pY + sY + 1) * rowT
          = z * (pY * rowT) + (sY + 1) * rowT := by ring
      rw [hb3]
      rw [extract_PadData_plane he hpX hpY hrowS hrowT hlen hsX hsY hz
        (by calc (sY + 1) * rowT + (pY - sY - 1) * rowT
              = ((sY + 1) + (pY - sY - 1)) * rowT := by ring
          _ = pY * rowT := by rw [show sY + 1 + (pY - sY - 1) = pY by omega]
          _ ≤ pY * rowT := Nat.le_refl _)]
      exact padPlane_yzeros_extract hlen helem hst hgap hz hsY hYlt
  · -- z-padding: one duplicated plane, zero planes beyond
    intro hZlt
    constructor
    · rw [PadData_dupplane_extract he hpX hpY hpZ hrowS hrowT hlen hsX hsY hsZ hZlt]
      rw [show (sZ - 1) * (pY * rowT) = (sZ - 1) * (pY * rowT) + 0 from
        (Nat.add_zero _).symm]
      rw [extract_PadData_plane he hpX hpY hrowS hrowT hlen hsX hsY
        (show sZ - 1 < sZ by omega) (by omega)]
      have hsy_le2 : sY ≤ pY := hsy_le
      exact (extract_self (padPlane_length false hlen (by omega) hsY helem hst hgap
        hsy_le2)).symm
    · exact PadData_zzeros_extract he hpX hpY hpZ hrowS hrowT hlen hsX hsY hsZ hZlt

/-- Witness for `PadData_border_replicates_one_layer` on the concrete
5×3×3 brick: the first x-padding byte of the first row copies the last
source byte of that row. -/
theorem PadData_border_replicates_one_layer_witness :
    extract (PadData false ((List.range 45).map (· + 1)) (5, 3, 3) 8 1).1 5 1
      = extract ((List.range 45).map (· + 1)) 4 1 := by
  have h := PadData_border_replicates_one_layer ((List.range 45).map (· + 1))
    5 3 3 8 1 1 5 8 8 4 4
    (PadData false ((List.range 45).map (· + 1)) (5, 3, 3) 8 1).1
    rfl (by decide) (by decide) (by decide) rfl rfl rfl (by decide)
    (by decide) (by decide) (by decide) (by decide) 0 0 (by decide) (by decide)
  have h1 := (h.1 (by decide)).1
  simpa using h1

/-- Witness for `PadData_pow2_identity` on a concrete 2×1×1 8-bit brick. -/
theorem PadData_pow2_identity_witness :
    PadData false [10, 20] (2, 1, 1) 8 1 = ([10, 20], (2, 1, 1)) :=
  PadData_pow2_identity false [10, 20] 2 1 1 8 1 1 0 0 rfl rfl rfl (by decide)

theorem BestMatch_of_matches {el : GLVolumeListElem} {vDimension : ℕ × ℕ × ℕ}
    {p d b s : Bool} (h : Matches el vDimension p d b s)
    (iIntra iFrame : ℕ) :
    el.BestMatch vDimension p d b s iIntra iFrame
      = if el.m_iFrameCounter < iFrame then
          (true, el.m_iIntraFrameCounter, el.m_iFrameCounter)
        else if iFrame = el.m_iFrameCounter
            ∧ iIntra < el.m_iIntraFrameCounter then
          (true, el.m_iIntraFrameCounter, el.m_iFrameCounter)
        else (false, iIntra, iFrame) := by
  obtain ⟨h1, h2, h3, h4, h5, h6⟩ := h
  unfold GLVolumeListElem.BestMatch
  rw [if_neg]
  simp [h1, h2, h3, h4, h5, h6]

theorem bestMatch_inUse_aux (el : GLVolumeListElem)
    (vDimension : ℕ × ℕ × ℕ) (p d b s : Bool) (iIntra iFrame : ℕ)
    (h : 0 < el.iUserCount) :
    (el.BestMatch vDimension p d b s iIntra iFrame).1 = false := by
  unfold GLVolumeListElem.BestMatch
  rw [if_pos (Or.inr (Or.inl h))]

/-- C7: an entry whose user count is positive is never accepted by
`BestMatch`, whatever the requested dimensions, flags and counters —
an entry in use is never an eviction/replacement candidate. -/
theorem BestMatch_false_of_inUse (el : GLVolumeListElem)
    (vDimension : ℕ × ℕ × ℕ) (p d b s : Bool) (iIntra iFrame : ℕ)
    (h : 0 < el.iUserCount) :
    (el.BestMatch vDimension p d b s iIntra iFrame).1 = false :=
  bestMatch_inUse_aux el vDimension p d b s iIntra iFrame h

/-- Invariant of the best-match scan once some entry has been accepted:
the final result is an entry whose frame counter is minimal among the
candidates seen, and whose intra-frame counter is maximal among the
candidates sharing that minimal frame counter. -/
theorem searchFold_min_max (vDim : ℕ × ℕ × ℕ) (p d b s : Bool) :
    ∀ (rest : List GLVolumeListElem) (bEl : GLVolumeListElem),
      (∀ e ∈ rest, Matches e vDim p d b s) →
      ∃ c, rest.foldl (BestMatchStep vDim p d b s)
          (some bEl, bEl.m_iIntraFrameCounter, bEl.m_iFrameCounter)
        = (some c, c.m_iIntraFrameCounter, c.m_iFrameCounter)
      ∧ (c = bEl ∨ c ∈ rest)
      ∧ c.m_iFrameCounter ≤ bEl.m_iFrameCounter
      ∧ (∀ e ∈ rest, c.m_iFrameCounter ≤ e.m_iFrameCounter)
      ∧ (bEl.m_iFrameCounter = c.m_iFrameCounter →
          bEl.m_iIntraFrameCounter ≤ c.m_iIntraFrameCounter)
      ∧ (∀ e ∈ rest, e.m_iFrameCounter = c.m_iFrameCounter →
          e.m_iIntraFrameCounter ≤ c.m_iIntraFrameCounter) := by
  intro rest
  induction rest with
  | nil =>
    intro bEl _
    exact ⟨bEl, rfl, Or.inl rfl, Nat.le_refl _, by simp, fun _ => Nat.le_refl _,
      by simp⟩
  | cons e rest ih =>
    intro bEl hm
    have hme : Matches e vDim p d b s := hm e (List.mem_cons_self e rest)
    have hmrest : ∀ x ∈ rest, Matches x vDim p d b s :=
      fun x hx => hm x (List.mem_cons_of_mem e hx)
    rw [List.foldl_cons]
    by_cases hcase : e.m_iFrameCounter < bEl.m_iFrameCounter
        ∨ (bEl.m_iFrameCounter = e.m_iFrameCounter
           ∧ bEl.m_iIntraFrameCounter < e.m_iIntraFrameCounter)
    · have hstep : BestMatchStep vDim p d b s
          (some bEl, bEl.m_iIntraFrameCounter, bEl.m_iFrameCounter) e
          = (some e, e.m_iIntraFrameCounter, e.m_iFrameCounter) := by
        simp only [BestMatchStep, BestMatch_of_matches hme]
        rcases hcase with h1 | h2
        · rw [if_pos h1]
          simp
        · have hnc1 : ¬ e.m_iFrameCounter < bEl.m_iFrameCounter := by omega
          rw [if_neg hnc1, if_pos h2]
          simp
      rw [hstep]
      obtain ⟨c, hfold, hcmem, hcb, hcrest, hib, hirest⟩ := ih e hmrest
      refine ⟨c, hfold, ?_, ?_, ?_, ?_, ?_⟩
      · rcases hcmem with hce | hcr
        · exact Or.inr (hce ▸ List.mem_cons_self e rest)
        · exact Or.inr (List.mem_cons_of_mem e hcr)
      · rcases hcase with h1 | h2
        · omega
        · omega
      · intro x hx
        rcases List.mem_cons.mp hx with hxe | hxr
        · exact hxe ▸ hcb
        · exact hcrest x hxr
      · intro hfr
        rcases hcase with h1 | h2
        · omega
        · have he1 : e.m_iFrameCounter = c.m_iFrameCounter := by omega
          have := hib he1
          omega
      · intro x hx
        rcases List.mem_cons.mp hx with hxe | hxr
        · exact hxe ▸ hib
        · exact hirest x hxr
    · push_neg at hcase
      have hstep : BestMatchStep vDim p d b s
          (some bEl, bEl.m_iIntraFrameCounter, bEl.m_iFrameCounter) e
          = (some bEl, bEl.m_iIntraFrameCounter, bEl.m_iFrameCounter) := by
        simp only [BestMatchStep, BestMatch_of_matches hme]
        have hnc1 : ¬ e.m_iFrameCounter < bEl.m_iFrameCounter := by omega
        have hnc2 : ¬ (bEl.m_iFrameCounter = e.m_iFrameCounter
            ∧ bEl.m_iIntraFrameCounter < e.m_iIntraFrameCounter) := by
          intro hand
          have := hcase.2 hand.1
          omega
        rw [if_neg hnc1, if_neg hnc2]
        simp
      rw [hstep]
      obtain ⟨c, hfold, hcmem, hcb, hcrest, hib, hirest⟩ := ih bEl hmrest
      have hbe : bEl.m_iFrameCounter ≤ e.m_iFrameCounter := hcase.1
      refine ⟨c, hfold, ?_, hcb, ?_, hib, ?_⟩
      · rcases hcmem with hce | hcr
        · exact Or.inl hce
        · exact Or.inr (List.mem_cons_of_mem e hcr)
      · intro x hx
        rcases List.mem_cons.mp hx with hxe | hxr
        · subst hxe; omega
        · exact hcrest x hxr
      · intro x hx
        rcases List.mem_cons.mp hx with hxe | hxr
        · subst hxe
          intro heq
          have hfb : bEl.m_iFrameCounter = x.m_iFrameCounter := by omega
          have hile : x.m_iIntraFrameCounter ≤ bEl.m_iIntraFrameCounter := by
            have := hcase.2 hfb
            omega
          have := hib (by omega)
          omega
        · exact hirest x hxr

/-- C1, amended: over entries that all match the request (same
dimensions, same format flags, user count 0), the iterated `BestMatch`
scan — started with a frame stamp larger than every entry's — selects
an entry with the smallest frame counter, and among entries with that
smallest frame counter the one with the LARGEST intra-frame counter
(the source accepts an equal-frame entry exactly when the running
intra-frame counter is below the entry's). -/
theorem BestMatchSearch_oldest_frame (entries : List GLVolumeListElem)
    (vDim : ℕ × ℕ × ℕ) (p d b s : Bool) (iIntra0 iFrame0 : ℕ)
    (hne : entries ≠ [])
    (hmatch : ∀ e ∈ entries, Matches e vDim p d b s)
    (hinit : ∀ e ∈ entries, e.m_iFrameCounter < iFrame0) :
    ∃ c, (BestMatchSearch entries vDim p d b s iIntra0 iFrame0).1 = some c
      ∧ c ∈ entries
      ∧ (∀ e ∈ entries, c.m_iFrameCounter ≤ e.m_iFrameCounter)
      ∧ (∀ e ∈ entries, e.m_iFrameCounter = c.m_iFrameCounter →
          e.m_iIntraFrameCounter ≤ c.m_iIntraFrameCounter) := by
  match entries, hne with
  | e0 :: rest, _ =>
    have hm0 : Matches e0 vDim p d b s := hmatch e0 (List.mem_cons_self e0 rest)
    unfold BestMatchSearch
    rw [List.foldl_cons]
    have hstep : BestMatchStep vDim p d b s (none, iIntra0, iFrame0) e0
        = (some e0, e0.m_iIntraFrameCounter, e0.m_iFrameCounter) := by
      simp only [BestMatchStep, BestMatch_of_matches hm0]
      rw [if_pos (hinit e0 (List.mem_cons_self e0 rest))]
      simp
    rw [hstep]
    obtain ⟨c, hfold, hcmem, hcb, hcrest, hib, hirest⟩ :=
      searchFold_min_max vDim p d b s rest e0
        (fun x hx => hmatch x (List.mem_cons_of_mem e0 hx))
    refine ⟨c, by rw [hfold], ?_, ?_, ?_⟩
    · rcases hcmem with hce | hcr
      · exact hce ▸ List.mem_cons_self e0 rest
      · exact List.mem_cons_of_mem e0 hcr
    · intro x hx
      rcases List.mem_cons.mp hx with hxe | hxr
      · exact hxe ▸ hcb
      · exact hcrest x hxr
    · intro x hx
      rcases List.mem_cons.mp hx with hxe | hxr
      · exact hxe ▸ hib
      · exact hirest x hxr

theorem FreeData_iUserCount (el : GLVolumeListElem) :
    el.FreeData.iUserCount = el.iUserCount := rfl

theorem FreeTexture_iUserCount (el : GLVolumeListElem) :
    el.FreeTexture.iUserCount = el.iUserCount := by
  unfold GLVolumeListElem.FreeTexture
  split <;> rfl

theorem LoadData_iUserCount (el : GLVolumeListElem) (hub : List ℕ)
    (inc : ℕ) (bytes : List ℕ) :
    ((el.LoadData hub inc bytes).2.1).iUserCount = el.iUserCount := by
  simp only [GLVolumeListElem.LoadData]
  split <;> rfl

theorem uploadStage_iUserCount (el : GLVolumeListElem) (raw : List ℕ)
    (bw cc : ℕ) :
    ((uploadStage el raw bw cc).2).iUserCount = el.iUserCount := by
  simp only [uploadStage]
  split <;> rfl

theorem createTextureStage_iUserCount (el : GLVolumeListElem) (raw : List ℕ)
    (bw cc : ℕ) (t : Bool) :
    ((createTextureStage el raw bw cc t).2).iUserCount = el.iUserCount := by
  simp only [createTextureStage]
  split
  · rfl
  · split
    · exact uploadStage_iUserCount el raw 8 cc
    · split
      · exact uploadStage_iUserCount el _ 16 cc
      · split
        · exact uploadStage_iUserCount el raw 32 cc
        · rfl

theorem CreateTexture_iUserCount (el : GLVolumeListElem) (hub : List ℕ)
    (inc : ℕ) (bytes : List ℕ) (del : Bool) :
    ((el.CreateTexture hub inc bytes del).2).iUserCount = el.iUserCount := by
  simp only [GLVolumeListElem.CreateTexture]
  set el1 := if del then el.FreeTexture else el with he1
  have h1 : el1.iUserCount = el.iUserCount := by
    rw [he1]
    split
    · exact FreeTexture_iUserCount el
    · rfl
  set el2 := if el1.vData.isEmpty then (el1.LoadData hub inc bytes).2.1 else el1
    with he2
  have h2 : el2.iUserCount = el.iUserCount := by
    rw [he2]
    split
    · rw [LoadData_iUserCount]
      exact h1
    · exact h1
  split
  · split
    · rw [FreeData_iUserCount, h2]
    · rw [createTextureStage_iUserCount, h2]
  · rw [createTextureStage_iUserCount, h2]

/-- C10: a freshly constructed cache entry starts with user count 1, and
consequently `BestMatch` never accepts it, whatever request is made. -/
theorem construct_starts_in_use (ds : DatasetInfo) (bvc : ℕ × ℕ × ℕ)
    (p d b s : Bool) (i f : ℕ) (hub : List ℕ) (inc : ℕ) (bytes : List ℕ) :
    (GLVolumeListElem.construct ds bvc p d b s i f hub inc bytes).iUserCount = 1
    ∧ ∀ vDim p2 d2 b2 s2 i2 f2,
      ((GLVolumeListElem.construct ds bvc p d b s i f hub inc bytes).BestMatch
        vDim p2 d2 b2 s2 i2 f2).1 = false := by
  have h1 : (GLVolumeListElem.construct ds bvc p d b s i f hub inc bytes).iUserCount
      = 1 := by
    simp only [GLVolumeListElem.construct]
    split
    · rw [FreeTexture_iUserCount, CreateTexture_iUserCount]
    · rw [CreateTexture_iUserCount]
  exact ⟨h1, fun vDim p2 d2 b2 s2 i2 f2 =>
    bestMatch_inUse_aux _ vDim p2 d2 b2 s2 i2 f2 (by rw [h1]; omega)⟩

theorem LoadData_pDataset (el : GLVolumeListElem) (hub : List ℕ)
    (inc : ℕ) (bytes : List ℕ) :
    ((el.LoadData hub inc bytes).2.1).pDataset = el.pDataset := by
  simp only [GLVolumeListElem.LoadData]
  split <;> rfl

theorem LoadData_volumes (el : GLVolumeListElem) (hub : List ℕ)
    (inc : ℕ) (bytes : List ℕ) :
    ((el.LoadData hub inc bytes).2.1).volumes = el.volumes := by
  simp only [GLVolumeListElem.LoadData]
  split <;> rfl

theorem createTexture_badCompCount_aux (el : GLVolumeListElem) (hub : List ℕ)
    (inc : ℕ) (bytes : List ℕ)
    (hcc : el.pDataset.compCount ≠ 1 ∧ el.pDataset.compCount ≠ 3
      ∧ el.pDataset.compCount ≠ 4) :
    (el.CreateTexture hub inc bytes false).1 = false
    ∧ (el.CreateTexture hub inc bytes false).2.vData = []
    ∧ (el.CreateTexture hub inc bytes false).2.volumes = el.volumes := by
  simp only [GLVolumeListElem.CreateTexture]
  rw [if_neg Bool.false_ne_true]
  set el2 := if el.vData.isEmpty then (el.LoadData hub inc bytes).2.1 else el
    with he2
  have hpd : el2.pDataset = el.pDataset := by
    rw [he2]
    split
    · exact LoadData_pDataset el hub inc bytes
    · rfl
  have hvol2 : el2.volumes = el.volumes := by
    rw [he2]
    split
    · exact LoadData_volumes el hub inc bytes
    · rfl
  have hstage : ∀ (raw : List ℕ) (bw : ℕ) (t : Bool),
      createTextureStage el2 raw bw el2.pDataset.compCount t
        = (false, el2.FreeData) := by
    intro raw bw t
    simp only [createTextureStage]
    rw [if_pos (by rw [hpd]; exact hcc)]
  split
  · split
    · exact ⟨rfl, rfl, hvol2⟩
    · rw [hstage]
      exact ⟨rfl, rfl, hvol2⟩
  · rw [hstage]
    exact ⟨rfl, rfl, hvol2⟩

/-- C6: a brick whose component count is not 1, 3 or 4 fails texture
creation: `CreateTexture` returns `false`, the staging buffer is
released and the volume slots are untouched; the constructor for such a
brick leaves no partial entry — the volume slot stays null and the
staging buffer is empty. -/
theorem CreateTexture_unsupported_shape
    (el : GLVolumeListElem) (hub : List ℕ) (inc : ℕ) (bytes : List ℕ)
    (hcc : el.pDataset.compCount ≠ 1 ∧ el.pDataset.compCount ≠ 3
      ∧ el.pDataset.compCount ≠ 4)
    (ds : DatasetInfo) (bvc : ℕ × ℕ × ℕ) (p d b s : Bool) (i f : ℕ)
    (hds : ds.compCount ≠ 1 ∧ ds.compCount ≠ 3 ∧ ds.compCount ≠ 4) :
    (el.CreateTexture hub inc bytes false).1 = false
    ∧ (el.CreateTexture hub inc bytes false).2.vData = []
    ∧ (el.CreateTexture hub inc bytes false).2.volumes = el.volumes
    ∧ (GLVolumeListElem.construct ds bvc p d b s i f hub inc bytes).volumes
        = [none]
    ∧ (GLVolumeListElem.construct ds bvc p d b s i f hub inc bytes).vData
        = [] := by
  obtain ⟨h1, h2, h3⟩ := createTexture_badCompCount_aux el hub inc bytes hcc
  have hctor := createTexture_badCompCount_aux
    { pDataset := ds, brickVoxelCounts := bvc, iUserCount := 1,
      m_iIntraFrameCounter := i, m_iFrameCounter := f,
      m_bIsPaddedToPowerOfTwo := p, m_bIsDownsampledTo8Bits := d,
      m_bDisableBorder := b, m_bEmulate3DWith2DStacks := s,
      m_bUsingHub := false, volumes := [none], vData := [] }
    hub inc bytes hds
  refine ⟨h1, h2, h3, ?_, ?_⟩
  · simp only [GLVolumeListElem.construct]
    rw [if_neg (fun hcon => hcon.2 (by rw [hctor.2.2]; rfl))]
    rw [hctor.2.2]
  · simp only [GLVolumeListElem.construct]
    rw [if_neg (fun hcon => hcon.2 (by rw [hctor.2.2]; rfl))]
    exact hctor.2.1

/-- C5, amended: only 16-bit data is byte-swapped.  For a 16-bit brick
the staged bytes handed to the GPU volume are the per-element
byte-swapped buffer exactly when the dataset's endianness disagrees
with the host, and the unchanged buffer when it agrees; a 32-bit brick
is uploaded unchanged even when the endianness disagrees. -/
theorem CreateTexture_endian_swaps_16bit_only
    (el : GLVolumeListElem) (inc : ℕ) (bytes : List ℕ) (vx vy vz : ℕ)
    (hbvc : el.brickVoxelCounts = (vx, vy, vz))
    (hvd : el.vData = []) (hhub : el.m_bUsingHub = false)
    (hvol : el.volumes = [none])
    (hds : el.m_bIsDownsampledTo8Bits = false)
    (hpad : el.m_bIsPaddedToPowerOfTwo = false)
    (hcc : el.pDataset.compCount = 1 ∨ el.pDataset.compCount = 3
      ∨ el.pDataset.compCount = 4) :
    (el.pDataset.bitWidth = 16 →
      (el.CreateTexture [] inc bytes false).1 = true
      ∧ (el.CreateTexture [] inc bytes false).2.volumes
        = [some ⟨vx, vy, vz, el.m_bEmulate3DWith2DStacks,
            if el.pDataset.sameEndian then bytes
            else swapShortBytes (el.pDataset.compCount * (vx * vy * vz)) bytes⟩])
    ∧ (el.pDataset.bitWidth = 32 →
      (el.CreateTexture [] inc bytes false).1 = true
      ∧ (el.CreateTexture [] inc bytes false).2.volumes
        = [some ⟨vx, vy, vz, el.m_bEmulate3DWith2DStacks, bytes⟩]) := by
  obtain ⟨⟨bw, cc, se, mn, mx⟩, bvc0, uc, ifc, fc, fp, fd, fb, fs, uh, vols, vd⟩ := el
  simp only at hbvc hvd hhub hvol hds hpad hcc
  subst hbvc hvd hhub hvol hds hpad
  constructor
  · intro hbw
    simp only at hbw
    subst hbw
    rcases hcc with h | h | h <;> subst h <;> cases se <;>
      simp [GLVolumeListElem.CreateTexture, createTextureStage, uploadStage,
        GLVolumeListElem.LoadData, GLVolumeListElem.FreeData]
  · intro hbw
    simp only at hbw
    subst hbw
    rcases hcc with h | h | h <;> subst h <;> cases se <;>
      simp [GLVolumeListElem.CreateTexture, createTextureStage, uploadStage,
        GLVolumeListElem.LoadData, GLVolumeListElem.FreeData]

/-- C5 as stated is false for 32-bit data: with mismatched endianness
the four bytes of the single float element are uploaded unchanged, not
byte-swapped. -/
theorem CreateTexture_32bit_not_swapped_counterexample :
    (elem32.CreateTexture [] 0 [1, 2, 3, 4] false).1 = true
    ∧ (elem32.CreateTexture [] 0 [1, 2, 3, 4] false).2.volumes
        = [some ⟨1, 1, 1, false, [1, 2, 3, 4]⟩]
    ∧ ([1, 2, 3, 4] : List ℕ) ≠ [4, 3, 2, 1] := by
  decide

/-- Witness for `CreateTexture_endian_swaps_16bit_only`: the two 16-bit
elements `[1,2]` and `[3,4]` upload as `[2,1,4,3]`. -/
theorem CreateTexture_endian_swaps_16bit_only_witness :
    (elem16.CreateTexture [] 0 [1, 2, 3, 4] false).1 = true
    ∧ (elem16.CreateTexture [] 0 [1, 2, 3, 4] false).2.volumes
        = [some ⟨2, 1, 1, false, [2, 1, 4, 3]⟩] := by
  have h := (CreateTexture_endian_swaps_16bit_only elem16 0 [1, 2, 3, 4]
    2 1 1 rfl rfl rfl rfl rfl rfl (Or.inl rfl)).1 rfl
  simpa [elem16] using h

/-- C4: the quantizer expression the source writes,
`(255.0*v - fMin)/(fMax-fMin)`, is not the documented
`(v - fMin)/(fMax-fMin)*255`: for `v = 100` on the range `[100, 355]`
the code yields 99 while the documented formula yields 0; the two only
agree in the spec's own example because there `fMin = 0`. -/
theorem quantize_precedence_bug :
    quantizeCode 100 100 355 = 99
    ∧ quantizeSpec 100 100 355 = 0
    ∧ quantizeCode 100 100 355 ≠ quantizeSpec 100 100 355
    ∧ quantizeCode 32768 0 65535 = 127
    ∧ quantizeSpec 32768 0 65535 = 127 := by
  have hc1 : quantizeCode 100 100 355 = 99 := by
    simp only [quantizeCode]
    rw [Int.floor_eq_iff]
    norm_num
  have hs1 : quantizeSpec 100 100 355 = 0 := by
    simp only [quantizeSpec]
    rw [Int.floor_eq_iff]
    norm_num
  have hc2 : quantizeCode 32768 0 65535 = 127 := by
    simp only [quantizeCode]
    rw [Int.floor_eq_iff]
    norm_num
  have hs2 : quantizeSpec 32768 0 65535 = 127 := by
    simp only [quantizeSpec]
    rw [Int.floor_eq_iff]
    norm_num
  refine ⟨hc1, hs1, ?_, hc2, hs2⟩
  rw [hc1, hs1]
  decide

/-- C9: a brick's raw bytes are staged in the shared upload hub exactly
when the hub is non-empty and the brick byte size
(voxels × bitWidth/8 × components) is at most 4× the IO layer's
in-core size; otherwise they land in the entry's private buffer. -/
theorem LoadData_hub_policy (el : GLVolumeListElem) (hub : List ℕ) (inc : ℕ)
    (bytes : List ℕ) (h0 : el.m_bUsingHub = false) :
    ((el.LoadData hub inc bytes).2.1.m_bUsingHub = true
      ↔ hub ≠ [] ∧ el.brickVoxelCounts.1 * el.brickVoxelCounts.2.1 *
          el.brickVoxelCounts.2.2 * (el.pDataset.bitWidth / 8) *
          el.pDataset.compCount ≤ inc * 4)
    ∧ ((el.LoadData hub inc bytes).2.1.m_bUsingHub = true →
        (el.LoadData hub inc bytes).2.1.vData = el.vData)
    ∧ ((el.LoadData hub inc bytes).2.1.m_bUsingHub = false →
        (el.LoadData hub inc bytes).2.1.vData = bytes)
    ∧ (el.LoadData hub inc bytes).1 = true := by
  simp only [GLVolumeListElem.LoadData]
  split
  · rename_i hcond
    refine ⟨?_, fun _ => rfl, fun hfalse => ?_, rfl⟩
    · constructor
      · intro _
        exact ⟨fun hnil => hcond.1 (by rw [hnil]; rfl), hcond.2⟩
      · intro _
        rfl
    · exact absurd (rfl : (true : Bool) = true) (by
        intro h
        have h2 : (true : Bool) = false := hfalse
        exact Bool.noConfusion h2)
  · rename_i hcond
    refine ⟨?_, fun htrue => ?_, fun _ => rfl, rfl⟩
    · constructor
      · intro htrue
        have h' : el.m_bUsingHub = true := htrue
        rw [h0] at h'
        exact absurd h' (by simp)
      · rintro ⟨hne, hle⟩
        exfalso
        apply hcond
        refine ⟨?_, hle⟩
        intro hemp
        cases hub with
        | nil => exact hne rfl
        | cons a t => exact Bool.noConfusion hemp
    · have h' : el.m_bUsingHub = true := htrue
      rw [h0] at h'
      exact absurd h' (by simp)

/-- Witness for `CreateTexture_unsupported_shape` at component count 2. -/
theorem CreateTexture_unsupported_shape_witness :
    (elemCC2.CreateTexture [] 0 [5, 6] false).1 = false
    ∧ (elemCC2.CreateTexture [] 0 [5, 6] false).2.vData = []
    ∧ (elemCC2.CreateTexture [] 0 [5, 6] false).2.volumes = elemCC2.volumes
    ∧ (GLVolumeListElem.construct ⟨8, 2, true, 0, 255⟩ (1, 1, 1) false false
        false false 0 0 [] 0 [5, 6]).volumes = [none]
    ∧ (GLVolumeListElem.construct ⟨8, 2, true, 0, 255⟩ (1, 1, 1) false false
        false false 0 0 [] 0 [5, 6]).vData = [] :=
  CreateTexture_unsupported_shape elemCC2 [] 0 [5, 6] (by decide)
    ⟨8, 2, true, 0, 255⟩ (1, 1, 1) false false false false 0 0 (by decide)

/-- Witness for `LoadData_hub_policy`: an 8-byte brick with in-core size
2 (8 ≤ 2·4) and a non-empty hub is staged in the hub. -/
theorem LoadData_hub_policy_witness :
    (elemHub.LoadData [7] 2 [9]).2.1.m_bUsingHub = true :=
  (LoadData_hub_policy elemHub [7] 2 [9] rfl).1.mpr (by decide)

/-- Witness for `BestMatch_false_of_inUse`: an exactly-matching request
is still rejected while the entry is in use. -/
theorem BestMatch_false_of_inUse_witness :
    0 < elemInUse.iUserCount
    ∧ (elemInUse.BestMatch (2, 2, 2) false false false false 100 100).1
      = false :=
  ⟨by decide, BestMatch_false_of_inUse elemInUse (2, 2, 2)
    false false false false 100 100 (by decide)⟩

/-- C1 as stated is false: on the spec's own scenario — A (frame 1,
intra 5), B (frame 1, intra 2), C (frame 2, intra 0), all matching and
unused — the iterated `BestMatch` search selects A, not B: at equal
frame counters the source keeps the entry with the larger intra-frame
counter. -/
theorem BestMatchSearch_selects_A_not_B :
    (BestMatchSearch [lruA, lruB, lruC] (2, 2, 2) false false false false
      1000 1000).1 = some lruA
    ∧ lruA ≠ lruB := by
  decide

/-- Witness for `BestMatchSearch_oldest_frame` on the concrete scenario
entries. -/
theorem BestMatchSearch_oldest_frame_witness :
    ∃ c, (BestMatchSearch [lruA, lruB, lruC] (2, 2, 2) false false false false
        1000 1000).1 = some c
      ∧ c ∈ [lruA, lruB, lruC]
      ∧ (∀ e ∈ [lruA, lruB, lruC], c.m_iFrameCounter ≤ e.m_iFrameCounter)
      ∧ (∀ e ∈ [lruA, lruB, lruC], e.m_iFrameCounter = c.m_iFrameCounter →
          e.m_iIntraFrameCounter ≤ c.m_iIntraFrameCounter) :=
  BestMatchSearch_oldest_frame [lruA, lruB, lruC] (2, 2, 2)
    false false false false 1000 1000 (by decide) (by decide) (by decide)

/-- C3: the registry reuses an open dataset for both loads (same
instance), but `FreeDataset`'s user scan `break`s after the first user,
so freeing in the order (second requester, first requester) leaves the
dataset alive with requester 2 still registered; only the order
(first, second) destroys it.  The second `FreeDataset` call of the
claim's failing order hits the "not found or not being used" warning
path although requester 2 is registered. -/
theorem FreeDataset_break_bug :
    ((⟨[], 0⟩ : GPUMemMan).LoadDataset "f" 1).2 = some ⟨0, "f"⟩
    ∧ ((((⟨[], 0⟩ : GPUMemMan).LoadDataset "f" 1).1.LoadDataset "f" 2).2
        = some ⟨0, "f"⟩)
    ∧ (((((⟨[], 0⟩ : GPUMemMan).LoadDataset "f" 1).1.LoadDataset "f" 2).1.FreeDataset
          ⟨0, "f"⟩ 2).FreeDataset ⟨0, "f"⟩ 1).m_vpVolumeDatasets
        = [⟨⟨0, "f"⟩, [2]⟩]
    ∧ (((((⟨[], 0⟩ : GPUMemMan).LoadDataset "f" 1).1.LoadDataset "f" 2).1.FreeDataset
          ⟨0, "f"⟩ 1).FreeDataset ⟨0, "f"⟩ 2).m_vpVolumeDatasets
        = [] := by
  decide

end Tuvok
